import Mathlib

/-!
# Verification of the lumen write-back buffer synchronization engine

Shallow embedding of `src/gpu/buffer.ts`: the alignment helpers
(`upperMultipleOf` / `lowerMultipleOf`), the `SyncBuffer` dirty-range
tracking and deferred flush, the `DataBuffer` write (`set().fromData`) and
read (`get().asData`) paths, the device-to-device `copy` operation, and the
`BufferMapper` map-request coalescer.

Byte memories are modelled as total functions `Int → Nat` (JavaScript typed
arrays are indexed by numbers which may be computed subtractively, so the
offset arithmetic is kept over `Int` where the source can go negative).
Alignment arithmetic on non-negative offsets/sizes stays in `Nat`: JavaScript
`Math.floor(x / n) * n` and `Math.ceil(x / n) * n` on non-negative integers
are `x / n * n` and `(x + n - 1) / n * n` in `Nat`.
-/

namespace Lumen

/-- Function `upperMultipleOf` from buffer.ts: `Math.ceil(value / n) * n`
(for non-negative integer inputs and positive `n`). -/
def upperMultipleOf (n value : Nat) : Nat :=
  (value + n - 1) / n * n

/-- Function `lowerMultipleOf` from buffer.ts: `Math.floor(value / n) * n`. -/
def lowerMultipleOf (n value : Nat) : Nat :=
  value / n * n

/-- Function `newBlankBuffer` from buffer.ts rounds the requested size up:
`createBuffer({ size: upperMultipleOf(4, size), ... })`; the model keeps
only the resulting hardware buffer size. -/
def newBlankBufferSize (size : Nat) : Nat :=
  upperMultipleOf 4 size

/-!
## SyncBuffer (the spec's MirroredBuffer)

State of one `SyncBuffer` as far as the dirty-range / flush logic is
concerned.  `len` is `cpuBuffer.byteLength`; `lo`/`hi` are
`dirtyRange[0]`/`dirtyRange[1]`; `pendingFlushes` counts `setTimeout`
callbacks created by `dirty` that have not fired yet; `writes` records the
`gpuBuffer.set({offset, size}).fromData(...)` calls issued by `clean`, as
`(offset, size)` pairs.
-/

structure SyncState where
  len : Nat
  lo : Nat
  hi : Nat
  pendingFlushes : Nat
  writes : List (Nat × Nat)
deriving Repr, DecidableEq

/-- The `SyncBuffer` constructor: `dirtyRange = [cpuBuffer.byteLength, 0]`,
nothing scheduled, nothing written. -/
def SyncState.init (len : Nat) : SyncState :=
  { len := len, lo := len, hi := 0, pendingFlushes := 0, writes := [] }

/-- Method `SyncBuffer.dirty(range)`: if the dirty range is currently in the empty
encoding (`lo > hi`), a flush is scheduled (`setTimeout(() => this.clean())`);
then each endpoint of the dirty range is widened to include `range`. -/
def SyncBuffer.dirty (s : SyncState) (range : Nat × Nat) : SyncState :=
  let s := if s.lo > s.hi then { s with pendingFlushes := s.pendingFlushes + 1 }
           else s
  let s := if range.1 < s.lo then { s with lo := range.1 } else s
  if range.2 > s.hi then { s with hi := range.2 } else s

/-- Method `SyncBuffer.clean()`: issues one
`gpuBuffer.set({offset := lo, size := hi - lo}).fromData(cpuBuffer, offset)`
and resets the dirty range to the empty encoding
(`[cpuBuffer.byteLength, 0]`).  The firing of the scheduled callback also
consumes it. -/
def SyncBuffer.clean (s : SyncState) : SyncState :=
  { s with
    writes := s.writes ++ [(s.lo, s.hi - s.lo)]
    lo := s.len
    hi := 0
    pendingFlushes := s.pendingFlushes - 1 }

/-- A sequence of `set` calls: each one widens the dirty range with the
element's byte range (`element.range()`), exactly as `dirty` does. -/
def SyncBuffer.dirtyAll (s : SyncState) (ranges : List (Nat × Nat)) : SyncState :=
  ranges.foldl SyncBuffer.dirty s

/-!
## BufferMapper (the spec's MappingCoalescer)

State of one `BufferMapper` as far as the pending-range / scheduling logic
is concerned.  `bufSize` is `buffer.size`; `lo`/`hi` are
`range[0]`/`range[1]`; `scheduledCallbacks` counts `scheduleMapping`
callbacks chained on `this.promise` that have not fired yet;
`physicalCalls` records the physical
`buffer.mapAsync(mode, range[0], range[1] - range[0])` hardware calls, as
`(offset, size)` pairs.
-/

structure MapperState where
  bufSize : Nat
  lo : Nat
  hi : Nat
  scheduledCallbacks : Nat
  physicalCalls : List (Nat × Nat)
deriving Repr, DecidableEq

/-- The `BufferMapper` constructor: `range = [buffer.size, 0]`, nothing
scheduled, no physical call issued. -/
def MapperState.init (bufSize : Nat) : MapperState :=
  { bufSize := bufSize, lo := bufSize, hi := 0, scheduledCallbacks := 0,
    physicalCalls := [] }

/-- Method `BufferMapper.request(offset, size, ...)`: reads
`mappingScheduled = range[1] > range[0]`, widens the pending range to
`[min(range[0], offset), max(range[1], offset + size)]`, and calls
`scheduleMapping()` only when no mapping was scheduled. -/
def BufferMapper.request (s : MapperState) (offset size : Nat) : MapperState :=
  let mappingScheduled := s.hi > s.lo
  let s := { s with lo := min s.lo offset, hi := max s.hi (offset + size) }
  if mappingScheduled then s
  else { s with scheduledCallbacks := s.scheduledCallbacks + 1 }

/-- The body of the `setTimeout` in `scheduleMapping`: issues the one
physical `this.buffer.mapAsync(this.mode, range[0], range[1] - range[0])`
and immediately resets the pending range to the empty encoding
`[buffer.size, 0]`; the scheduled callback is consumed. -/
def BufferMapper.fire (s : MapperState) : MapperState :=
  { s with
    physicalCalls := s.physicalCalls ++ [(s.lo, s.hi - s.lo)]
    lo := s.bufSize
    hi := 0
    scheduledCallbacks := s.scheduledCallbacks - 1 }

/-- Alignment correction in `BufferMapper.mapAsync(offset, size)`:
`validOffset = lowerMultipleOf(8, offset)`. -/
def BufferMapper.mapAsyncValidOffset (offset : Nat) : Nat :=
  lowerMultipleOf 8 offset

/-- Alignment correction in `BufferMapper.mapAsync(offset, size)`:
`offsetCorrection = offset - validOffset`. -/
def BufferMapper.mapAsyncCorrection (offset : Nat) : Nat :=
  offset - BufferMapper.mapAsyncValidOffset offset

/-- Alignment correction in `BufferMapper.mapAsync(offset, size)`:
`validSize = upperMultipleOf(4, size + offsetCorrection)`. -/
def BufferMapper.mapAsyncValidSize (offset size : Nat) : Nat :=
  upperMultipleOf 4 (size + BufferMapper.mapAsyncCorrection offset)

/-- One logical `mapAsync(offset, size)` call, as far as the pending-range
state is concerned: corrects the requested range and issues
`this.request(validOffset, validSize, ...)`. -/
def BufferMapper.mapAsyncRequest (s : MapperState) (r : Nat × Nat) :
    MapperState :=
  BufferMapper.request s (BufferMapper.mapAsyncValidOffset r.1)
    (BufferMapper.mapAsyncValidSize r.1 r.2)

/-- A batch of logical `mapAsync` calls issued before any callback fires. -/
def BufferMapper.requestAll (s : MapperState) (reqs : List (Nat × Nat)) :
    MapperState :=
  reqs.foldl BufferMapper.mapAsyncRequest s

/-!
## Byte memories and the transfer paths
-/

/-- One `TypedArray.prototype.set`-style bulk byte copy: `n` bytes of `src`
starting at `srcOff` land in `dst` starting at `dstOff`.  Offsets are `Int`
because the source computes them subtractively. -/
def copyBytes (dst : Int → Nat) (dstOff : Int) (src : Int → Nat)
    (srcOff : Int) (n : Nat) : Int → Nat :=
  fun i => if dstOff ≤ i ∧ i < dstOff + n then src (srcOff + (i - dstOff))
           else dst i

/-- The view resolved to a `BufferMapper.mapAsync(offset, size)` caller:
`buffer.getMappedRange(validOffset, validSize)` exposes buffer bytes from
`validOffset`, and `new Uint8Array(range.slice(), offsetCorrection, size)`
starts `offsetCorrection` bytes into that physical region; byte `j` of the
view is byte `validOffset + offsetCorrection + j` of the buffer. -/
def BufferMapper.mapAsyncView (bufBytes : Int → Nat) (offset size : Nat) :
    Nat → Nat :=
  fun j =>
    bufBytes ((BufferMapper.mapAsyncValidOffset offset +
      BufferMapper.mapAsyncCorrection offset + j : Nat) : Int)

/-- State of one hardware-backed buffer: its (rounded) size, whether
`destroy()` has been called on the wrapped handle, and its byte contents. -/
structure BufferState where
  size : Nat
  destroyed : Bool
  bytes : Int → Nat

/-- Method `AbstractBuffer.destroy()`: `this._wrapped.destroy()` invalidates
the hardware handle. -/
def AbstractBuffer.destroy (b : BufferState) : BufferState :=
  { b with destroyed := true }

/-- Host-side data passed to `fromData`: a JavaScript `DataView` is a window
`[byteOffset, byteOffset + byteLength)` into a backing `ArrayBuffer`
(`data.buffer`). -/
structure HostData where
  buffer : Int → Nat
  byteOffset : Nat
  byteLength : Nat

/-- Alignment in `DataBuffer.set(...).fromData`:
`validBufferOffset = lowerMultipleOf(4, bufferOffset)`. -/
def DataBuffer.setValidBufferOffset (bufferOffset : Nat) : Nat :=
  lowerMultipleOf 4 bufferOffset

/-- Alignment in `DataBuffer.set(...).fromData`:
`offsetCorrection = bufferOffset - validBufferOffset`. -/
def DataBuffer.setOffsetCorrection (bufferOffset : Nat) : Nat :=
  bufferOffset - DataBuffer.setValidBufferOffset bufferOffset

/-- Alignment in `DataBuffer.set(...).fromData`:
`validSize = upperMultipleOf(4, size + offsetCorrection)`. -/
def DataBuffer.setValidSize (bufferOffset size : Nat) : Nat :=
  upperMultipleOf 4 (size + DataBuffer.setOffsetCorrection bufferOffset)

/-- Computation of `validDataOffset` in `DataBuffer.set(...).fromData`:
`absoluteDataOffset - offsetCorrection` where
`absoluteDataOffset = data.byteOffset + dataOffset`, over the integers as in
JavaScript (the subtraction can go negative). -/
def DataBuffer.setValidDataOffset (dataByteOffset dataOffset bufferOffset : Nat) :
    Int :=
  ((dataByteOffset + dataOffset : Nat) : Int) -
    ((DataBuffer.setOffsetCorrection bufferOffset : Nat) : Int)

/-- Outcome of a write-path call: any error raised by the wrapper component
itself, the `queue.writeBuffer` hardware calls issued, as
`(bufferOffset, dataOffset, size)` triples, and the resulting hardware
bytes. -/
structure WriteOutcome where
  componentError : Option String
  queueWrites : List (Nat × Int × Nat)
  hw : Int → Nat

/-- Method `DataBuffer.set(bufferSegment).fromData(data, dataOffset)` from
buffer.ts: resolves the segment defaults, applies the 4-byte alignment
correction, and unconditionally issues exactly one
`device.wrapped.queue.writeBuffer(wrapped, validBufferOffset, data.buffer,
validDataOffset, validSize)` — there is no bounds check and no
destroyed-handle check in the source. -/
def DataBuffer.setFromData (b : BufferState) (segOffset : Option Nat)
    (segSize : Option Nat) (data : HostData) (dataOffset : Nat) :
    WriteOutcome :=
  let bufferOffset := segOffset.getD 0
  let size := segSize.getD
    (min (b.size - bufferOffset) (data.byteLength - dataOffset))
  let validBufferOffset := DataBuffer.setValidBufferOffset bufferOffset
  let validDataOffset :=
    DataBuffer.setValidDataOffset data.byteOffset dataOffset bufferOffset
  let validSize := DataBuffer.setValidSize bufferOffset size
  { componentError := none
    queueWrites := [(validBufferOffset, validDataOffset, validSize)]
    hw := copyBytes b.bytes (validBufferOffset : Int) data.buffer
      validDataOffset validSize }

/-- Outcome of the device-to-device `copy` path: the error raised by the
wrapper (if any), the `copyBufferToBuffer` commands enqueued, as
`(srcOffset, dstOffset, size)` triples, and the resulting destination
bytes. -/
structure CopyOutcome where
  error : Option String
  commands : List (Nat × Nat × Nat)
  dstBytes : Int → Nat

/-- Function `copy(segmentSize).from(srcBuffer, srcOffset).to(dstBuffer,
dstOffset)` from buffer.ts: resolves the default size, computes both
4-byte offset corrections, throws when they differ (before anything is
enqueued), and otherwise enqueues exactly one
`copyBufferToBuffer(src, srcValidOffset, dst, dstValidOffset, validSize)`
command. -/
def copy (srcSize dstSize : Nat) (segmentSize : Option Nat)
    (srcOffset dstOffset : Nat) (srcBytes dstBytes : Int → Nat) :
    CopyOutcome :=
  let size := segmentSize.getD (min (srcSize - srcOffset) (dstSize - dstOffset))
  let srcValidOffset := lowerMultipleOf 4 srcOffset
  let dstValidOffset := lowerMultipleOf 4 dstOffset
  let srcOffsetCorrection := srcOffset - srcValidOffset
  let dstOffsetCorrection := dstOffset - dstValidOffset
  if srcOffsetCorrection ≠ dstOffsetCorrection then
    { error := some "Copying between unaligned buffers is not possible!"
      commands := []
      dstBytes := dstBytes }
  else
    let validSize := upperMultipleOf 4 (size + srcOffsetCorrection)
    { error := none
      commands := [(srcValidOffset, dstValidOffset, validSize)]
      dstBytes := copyBytes dstBytes (dstValidOffset : Int) srcBytes
        (srcValidOffset : Int) validSize }

/-- Method `Device.readBuffer(size, label)` from device.ts: constructs a
temporary staging `ReadBuffer` (`ReadBuffer.instance(this, size, label)`);
the `ReadBuffer` constructor in buffer.ts then allocates a blank
`MAP_READ | COPY_DST` hardware buffer of `newBlankBufferSize size`
zero-initialized bytes via `newBlankBuffer`. -/
def Device.readBuffer (size : Nat) : BufferState :=
  { size := newBlankBufferSize size, destroyed := false, bytes := fun _ => 0 }

/-- Method `ReadBuffer.get({}).asData()` called with no arguments (as
`DataBuffer.get` does): allocates a fresh zero `DataView` of `this.size`
bytes, maps the whole buffer (`mapper.mapAsync(0, this.size)`), and copies
`size = this.size` bytes of the mapped view into the fresh view. -/
def ReadBuffer.getAsData (temp : BufferState) : Nat → Nat :=
  fun i => if i < temp.size then BufferMapper.mapAsyncView temp.bytes 0 temp.size i
           else 0

/-- Method `DataBuffer.get({}).asData()` called with no arguments: a
full-buffer read to host.  `size = this.size`; a staging `ReadBuffer` of
that size is allocated, the whole buffer is copied into it
(`this.copy({}).to(temp)` — offsets 0, default size), the staging buffer is
read back through the mapper, and `temp.destroy()` runs in the `finally`
block on both the normal and the exceptional exit path (the `Bool` in the
result records that the staging buffer was destroyed). -/
def DataBuffer.getAsData (b : BufferState) : Except String (Nat → Nat) × Bool :=
  let size := b.size
  let temp := Device.readBuffer size
  let res := copy b.size temp.size none 0 0 b.bytes temp.bytes
  match res.error with
  | some e => (Except.error e, true)
  | none => (Except.ok (ReadBuffer.getAsData { temp with bytes := res.dstBytes }),
      true)

/-- Modelled from the spec: an element descriptor from the caller's type
layer (types.ts is not among the sources) is "an opaque {offset, size}
contract"; `element.write(view, value)` stores the value's byte encoding at
bytes `[offset, offset + size)` of the view and `element.range()` is the
byte interval `[offset, offset + size]` used to widen the dirty range. -/
structure Element where
  offset : Nat
  size : Nat

/-- Byte range of an element, as passed to `SyncBuffer.dirty`. -/
def Element.range (e : Element) : Nat × Nat := (e.offset, e.offset + e.size)

/-- Events touching one `SyncBuffer`: a typed `set` of an element with byte
range `[a, b]`, or the firing of a scheduled flush callback. -/
inductive SyncEvent where
  | set : Nat → Nat → SyncEvent
  | flushTick : SyncEvent
deriving Repr, DecidableEq

/-- Stepping the `SyncBuffer` state by one event. -/
def SyncBuffer.step (s : SyncState) : SyncEvent → SyncState
  | .set a b => SyncBuffer.dirty s (a, b)
  | .flushTick => SyncBuffer.clean s

/-- Well-formed events: a `set` writes an element whose byte range
`[offset, offset + size]` satisfies `a ≤ b`; a flush tick is the firing of a
callback that was actually scheduled. -/
def SyncEvent.wf (s : SyncState) : SyncEvent → Prop
  | .set a b => a ≤ b
  | .flushTick => 0 < s.pendingFlushes

/-- States of a `SyncBuffer` of mirror length `len` reachable by
well-formed events. -/
inductive SyncReachable (len : Nat) : SyncState → Prop where
  | init : SyncReachable len (SyncState.init len)
  | step {s : SyncState} {e : SyncEvent} : SyncReachable len s →
      SyncEvent.wf s e → SyncReachable len (SyncBuffer.step s e)

example : newBlankBufferSize 10 = 12 := by decide

example : upperMultipleOf 4 12 = 12 := by decide

example : lowerMultipleOf 4 7 = 4 := by decide

example : upperMultipleOf 4 0 = 0 := by decide

theorem upperMultipleOf_ge (n value : Nat) (hn : 0 < n) :
    value ≤ upperMultipleOf n value := by
  unfold upperMultipleOf
  have h := Nat.div_add_mod (value + n - 1) n
  have hr : (value + n - 1) % n < n := Nat.mod_lt _ hn
  have hq : (value + n - 1) / n * n = n * ((value + n - 1) / n) :=
    Nat.mul_comm _ _
  omega

theorem upperMultipleOf_mod (n value : Nat) : upperMultipleOf n value % n = 0 := by
  unfold upperMultipleOf
  exact Nat.mul_mod_left _ _

theorem lowerMultipleOf_le (n value : Nat) : lowerMultipleOf n value ≤ value :=
  Nat.div_mul_le_self value n

theorem lowerMultipleOf_dvd (n value : Nat) : n ∣ lowerMultipleOf n value :=
  Dvd.intro_left _ rfl

theorem upperMultipleOf_eq_of_dvd (n value : Nat) (hn : 0 < n)
    (h : n ∣ value) : upperMultipleOf n value = value := by
  rcases h with ⟨k, rfl⟩
  unfold upperMultipleOf
  have h1 : n * k + n - 1 = n * k + (n - 1) := by omega
  rw [h1, Nat.mul_add_div hn, Nat.div_eq_of_lt (by omega), Nat.add_zero,
    Nat.mul_comm]

theorem upperMultipleOf_le_of_le (n value bound : Nat) (hn : 0 < n)
    (hd : n ∣ bound) (h : value ≤ bound) :
    upperMultipleOf n value ≤ bound := by
  have h1 : upperMultipleOf n value ≤ upperMultipleOf n bound := by
    unfold upperMultipleOf
    exact Nat.mul_le_mul_right n (Nat.div_le_div_right (by omega))
  rw [upperMultipleOf_eq_of_dvd n bound hn hd] at h1
  exact h1

/-- The 4-byte offset correction `offset - lowerMultipleOf(4, offset)`
equals `offset % 4`. -/
theorem correction_eq_mod (n offset : Nat) :
    offset - lowerMultipleOf n offset = offset % n := by
  unfold lowerMultipleOf
  have h := Nat.div_add_mod offset n
  have hq : offset / n * n = n * (offset / n) := Nat.mul_comm _ _
  omega

example :
    SyncBuffer.dirtyAll (SyncState.init (newBlankBufferSize 10)) [(3, 5)] =
      { len := 12, lo := 3, hi := 5, pendingFlushes := 1, writes := [] } := by
  decide

example :
    SyncBuffer.dirtyAll (SyncState.init (newBlankBufferSize 10)) [(3, 5), (7, 9)] =
      { len := 12, lo := 3, hi := 9, pendingFlushes := 1, writes := [] } := by
  decide

example :
    SyncBuffer.clean
      (SyncBuffer.dirtyAll (SyncState.init (newBlankBufferSize 10)) [(3, 5), (7, 9)]) =
      { len := 12, lo := 12, hi := 0, pendingFlushes := 0, writes := [(3, 6)] } := by
  decide

theorem SyncBuffer.dirty_eq (s : SyncState) (r : Nat × Nat) :
    SyncBuffer.dirty s r =
      { s with lo := min s.lo r.1, hi := max s.hi r.2,
               pendingFlushes :=
                 s.pendingFlushes + (if s.lo > s.hi then 1 else 0) } := by
  rcases s with ⟨len, lo, hi, p, w⟩
  simp only [SyncBuffer.dirty, min_def, max_def]
  split_ifs <;> (try simp_all [SyncState.mk.injEq]) <;> omega

theorem SyncBuffer.dirtyAll_len (s : SyncState) (rs : List (Nat × Nat)) :
    (SyncBuffer.dirtyAll s rs).len = s.len := by
  induction rs generalizing s with
  | nil => rfl
  | cons r rs ih =>
    simp only [SyncBuffer.dirtyAll, List.foldl_cons] at *
    rw [ih, SyncBuffer.dirty_eq]

theorem SyncBuffer.dirtyAll_writes (s : SyncState) (rs : List (Nat × Nat)) :
    (SyncBuffer.dirtyAll s rs).writes = s.writes := by
  induction rs generalizing s with
  | nil => rfl
  | cons r rs ih =>
    simp only [SyncBuffer.dirtyAll, List.foldl_cons] at *
    rw [ih, SyncBuffer.dirty_eq]

theorem SyncBuffer.dirtyAll_lo (s : SyncState) (rs : List (Nat × Nat)) :
    (SyncBuffer.dirtyAll s rs).lo =
      (rs.map Prod.fst).foldl min s.lo := by
  induction rs generalizing s with
  | nil => rfl
  | cons r rs ih =>
    simp only [SyncBuffer.dirtyAll, List.foldl_cons, List.map_cons] at *
    rw [ih, SyncBuffer.dirty_eq]

theorem SyncBuffer.dirtyAll_hi (s : SyncState) (rs : List (Nat × Nat)) :
    (SyncBuffer.dirtyAll s rs).hi =
      (rs.map Prod.snd).foldl max s.hi := by
  induction rs generalizing s with
  | nil => rfl
  | cons r rs ih =>
    simp only [SyncBuffer.dirtyAll, List.foldl_cons, List.map_cons] at *
    rw [ih, SyncBuffer.dirty_eq]

theorem foldl_min_spec (init : Nat) (xs : List Nat) :
    (xs.foldl min init = init ∨ ∃ x ∈ xs, xs.foldl min init = x) ∧
      xs.foldl min init ≤ init ∧ ∀ x ∈ xs, xs.foldl min init ≤ x := by
  induction xs generalizing init with
  | nil => simp
  | cons y ys ih =>
    simp only [List.foldl_cons, List.mem_cons]
    obtain ⟨hmem, hle, hall⟩ := ih (min init y)
    refine ⟨?_, ?_, ?_⟩
    · rcases hmem with h | ⟨x, hx, h⟩
      · rcases Nat.le_total init y with hy | hy
        · left; rw [h]; exact Nat.min_eq_left hy
        · right; exact ⟨y, Or.inl rfl, by rw [h]; exact Nat.min_eq_right hy⟩
      · right; exact ⟨x, Or.inr hx, h⟩
    · exact hle.trans (Nat.min_le_left _ _)
    · rintro x (rfl | hx)
      · exact hle.trans (Nat.min_le_right _ _)
      · exact hall x hx

theorem foldl_max_spec (init : Nat) (xs : List Nat) :
    (xs.foldl max init = init ∨ ∃ x ∈ xs, xs.foldl max init = x) ∧
      init ≤ xs.foldl max init ∧ ∀ x ∈ xs, x ≤ xs.foldl max init := by
  induction xs generalizing init with
  | nil => simp
  | cons y ys ih =>
    simp only [List.foldl_cons, List.mem_cons]
    obtain ⟨hmem, hle, hall⟩ := ih (max init y)
    refine ⟨?_, ?_, ?_⟩
    · rcases hmem with h | ⟨x, hx, h⟩
      · rcases Nat.le_total init y with hy | hy
        · right; exact ⟨y, Or.inl rfl, by rw [h]; exact Nat.max_eq_right hy⟩
        · left; rw [h]; exact Nat.max_eq_left hy
      · right; exact ⟨x, Or.inr hx, h⟩
    · exact (Nat.le_max_left _ _).trans hle
    · rintro x (rfl | hx)
      · exact (Nat.le_max_right _ _).trans hle
      · exact hall x hx

/-!
## Helper lemmas
-/

theorem copyBytes_outside (dst : Int → Nat) (dstOff : Int) (src : Int → Nat)
    (srcOff : Int) (n : Nat) (i : Int) (h : i < dstOff ∨ dstOff + n ≤ i) :
    copyBytes dst dstOff src srcOff n i = dst i := by
  unfold copyBytes
  rw [if_neg]
  rintro ⟨h1, h2⟩
  omega

/-!
## Claims C3, C4, C5, C8, C9, C10
-/

/-- C9: for every `(offset, size)` request with `offset + size ≤ capacity`,
the 4-byte correction of the write path satisfies
`validOffset = floor(offset/4)*4 ≤ offset`,
`validSize = ceil((size + offset - validOffset)/4)*4`, `validSize` is a
multiple of 4, and the corrected region
`[validOffset, validOffset + validSize)` contains `[offset, offset + size)`. -/
theorem claim_C9_write_alignment (capacity offset size : Nat)
    (hbound : offset + size ≤ capacity) :
    DataBuffer.setValidBufferOffset offset = offset / 4 * 4 ∧
    DataBuffer.setValidBufferOffset offset ≤ offset ∧
    DataBuffer.setValidSize offset size =
      upperMultipleOf 4 (size + offset - DataBuffer.setValidBufferOffset offset) ∧
    DataBuffer.setValidSize offset size % 4 = 0 ∧
    offset + size ≤
      DataBuffer.setValidBufferOffset offset + DataBuffer.setValidSize offset size := by
  have hle : DataBuffer.setValidBufferOffset offset ≤ offset :=
    lowerMultipleOf_le 4 offset
  refine ⟨rfl, hle, ?_, ?_, ?_⟩
  · unfold DataBuffer.setValidSize DataBuffer.setOffsetCorrection
    congr 1
    omega
  · exact upperMultipleOf_mod 4 _
  · have hge := upperMultipleOf_ge 4 (size + DataBuffer.setOffsetCorrection offset)
      (by norm_num)
    unfold DataBuffer.setValidSize
    unfold DataBuffer.setOffsetCorrection at *
    omega

/-- Witness for C9 at `capacity = 12`, `offset = 3`, `size = 2`. -/
theorem claim_C9_write_alignment_witness :
    3 + 2 ≤ 12 ∧
    (DataBuffer.setValidBufferOffset 3 = 3 / 4 * 4 ∧
      DataBuffer.setValidBufferOffset 3 ≤ 3 ∧
      DataBuffer.setValidSize 3 2 =
        upperMultipleOf 4 (2 + 3 - DataBuffer.setValidBufferOffset 3) ∧
      DataBuffer.setValidSize 3 2 % 4 = 0 ∧
      3 + 2 ≤ DataBuffer.setValidBufferOffset 3 + DataBuffer.setValidSize 3 2) :=
  ⟨by decide, claim_C9_write_alignment 12 3 2 (by decide)⟩

/-- C10: whenever the buffer offset is not 4-aligned and the source window
starts fewer than `bufferOffset % 4` bytes into the host `ArrayBuffer`, the
data offset handed to the hardware queue write is negative — the widened
transfer window extends before the start of the host data buffer. -/
theorem claim_C10_negative_data_offset (b : BufferState) (segOffset segSize : Nat)
    (data : HostData) (dataOffset : Nat)
    (hmis : segOffset % 4 ≠ 0)
    (hsmall : data.byteOffset + dataOffset < segOffset % 4) :
    DataBuffer.setValidDataOffset data.byteOffset dataOffset segOffset < 0 ∧
    (DataBuffer.setFromData b (some segOffset) (some segSize) data
        dataOffset).queueWrites =
      [(DataBuffer.setValidBufferOffset segOffset,
        DataBuffer.setValidDataOffset data.byteOffset dataOffset segOffset,
        DataBuffer.setValidSize segOffset segSize)] := by
  constructor
  · unfold DataBuffer.setValidDataOffset DataBuffer.setOffsetCorrection
      DataBuffer.setValidBufferOffset lowerMultipleOf
    omega
  · rfl

/-- Witness for C10 at `data.byteOffset = 0`, `dataOffset = 0`,
`bufferOffset = 3`: the computed hardware data offset is `-3`. -/
theorem claim_C10_negative_data_offset_witness :
    (3 % 4 ≠ 0) ∧ ((0 : Nat) + 0 < 3 % 4) ∧
    DataBuffer.setValidDataOffset 0 0 3 < 0 :=
  ⟨by decide, by decide,
    (claim_C10_negative_data_offset ⟨12, false, fun _ => 0⟩ 3 2
      ⟨fun _ => 0, 0, 10⟩ 0 (by decide) (by decide)).1⟩

/-- C3 is false as stated: `DataBuffer.set(...).fromData` performs no bounds
validation.  With capacity 12 and an explicit request at offset 100 of size
8 (far out of bounds), no error is raised by the component and a hardware
queue write is still issued. -/
theorem claim_C3_counterexample :
    100 + 8 > 12 ∧
    (DataBuffer.setFromData ⟨12, false, fun _ => 0⟩ (some 100) (some 8)
        ⟨fun _ => 0, 0, 200⟩ 0).componentError = none ∧
    (DataBuffer.setFromData ⟨12, false, fun _ => 0⟩ (some 100) (some 8)
        ⟨fun _ => 0, 0, 200⟩ 0).queueWrites ≠ [] :=
  ⟨by decide, rfl, by decide⟩

/-- C3 amended: `writeFromHost` performs no bounds validation at all — for
every request, in bounds or not, the component raises no error and issues
exactly one hardware queue write at the alignment-corrected parameters
(bounds enforcement is left entirely to the hardware layer). -/
theorem claim_C3_no_bounds_check (b : BufferState) (segOffset segSize : Nat)
    (data : HostData) (dataOffset : Nat) :
    (DataBuffer.setFromData b (some segOffset) (some segSize) data
        dataOffset).componentError = none ∧
    (DataBuffer.setFromData b (some segOffset) (some segSize) data
        dataOffset).queueWrites =
      [(DataBuffer.setValidBufferOffset segOffset,
        DataBuffer.setValidDataOffset data.byteOffset dataOffset segOffset,
        DataBuffer.setValidSize segOffset segSize)] :=
  ⟨rfl, rfl⟩

/-- C8 is false as stated: after `destroy()`, a subsequent
`set(...).fromData` raises no destroyed-resource error and still issues its
hardware queue write — there is no destroyed-handle guard in the wrapper. -/
theorem claim_C8_counterexample :
    (AbstractBuffer.destroy ⟨12, false, fun _ => 0⟩).destroyed = true ∧
    (DataBuffer.setFromData (AbstractBuffer.destroy ⟨12, false, fun _ => 0⟩)
        (some 0) (some 4) ⟨fun _ => 0, 0, 4⟩ 0).componentError = none ∧
    (DataBuffer.setFromData (AbstractBuffer.destroy ⟨12, false, fun _ => 0⟩)
        (some 0) (some 4) ⟨fun _ => 0, 0, 4⟩ 0).queueWrites = [(0, 0, 4)] :=
  ⟨rfl, rfl, by decide⟩

/-- C8 amended: operations on a destroyed buffer perform no component-level
check: for every buffer state with `destroyed = true`, a write raises no
component error and still issues its one hardware queue write; any failure
surfaces only from the hardware layer. -/
theorem claim_C8_no_destroyed_guard (b : BufferState)
    (hdestroyed : b.destroyed = true) (segOffset segSize : Nat)
    (data : HostData) (dataOffset : Nat) :
    (DataBuffer.setFromData b (some segOffset) (some segSize) data
        dataOffset).componentError = none ∧
    (DataBuffer.setFromData b (some segOffset) (some segSize) data
        dataOffset).queueWrites =
      [(DataBuffer.setValidBufferOffset segOffset,
        DataBuffer.setValidDataOffset data.byteOffset dataOffset segOffset,
        DataBuffer.setValidSize segOffset segSize)] :=
  ⟨rfl, rfl⟩

/-- Witness for the amended C8 on a concrete destroyed buffer. -/
theorem claim_C8_no_destroyed_guard_witness :
    (AbstractBuffer.destroy ⟨12, false, fun _ => 0⟩).destroyed = true ∧
    (DataBuffer.setFromData (AbstractBuffer.destroy ⟨12, false, fun _ => 0⟩)
        (some 3) (some 2) ⟨fun _ => 0, 4, 8⟩ 1).componentError = none :=
  ⟨rfl,
    (claim_C8_no_destroyed_guard (AbstractBuffer.destroy ⟨12, false, fun _ => 0⟩)
      rfl 3 2 ⟨fun _ => 0, 4, 8⟩ 1).1⟩

/-- C4 is false as stated: the physical size of a mapped region is rounded
up to a multiple of 4, not of the 8-byte mapping alignment.  At
`offset = 0`, `size = 4` the corrected size is 4, which is not a multiple
of 8. -/
theorem claim_C4_counterexample :
    BufferMapper.mapAsyncValidSize 0 4 = 4 ∧
    BufferMapper.mapAsyncValidSize 0 4 % 8 ≠ 0 := by
  constructor <;> decide

/-- C4 amended: the mapped-region correction uses required alignment 8 for
the offset (`validOffset = floor(offset/8)*8 ≤ offset`,
`correction = offset - validOffset`) but rounds the size to a multiple of 4
(`validSize = upperMultipleOf(4, size + correction) ≥ size + correction`),
and the view the caller receives is exactly the requested byte range
`[offset, offset + size)` sliced out of the over-aligned physical region. -/
theorem claim_C4_map_alignment (offset size : Nat) (bufBytes : Int → Nat) :
    BufferMapper.mapAsyncValidOffset offset = offset / 8 * 8 ∧
    BufferMapper.mapAsyncValidOffset offset ≤ offset ∧
    BufferMapper.mapAsyncCorrection offset =
      offset - BufferMapper.mapAsyncValidOffset offset ∧
    size + BufferMapper.mapAsyncCorrection offset ≤
      BufferMapper.mapAsyncValidSize offset size ∧
    BufferMapper.mapAsyncValidSize offset size % 4 = 0 ∧
    ∀ j, j < size →
      BufferMapper.mapAsyncView bufBytes offset size j =
        bufBytes ((offset + j : Nat) : Int) := by
  have hle : BufferMapper.mapAsyncValidOffset offset ≤ offset :=
    lowerMultipleOf_le 8 offset
  refine ⟨rfl, hle, rfl, ?_, ?_, ?_⟩
  · exact upperMultipleOf_ge 4 _ (by norm_num)
  · exact upperMultipleOf_mod 4 _
  · intro j hj
    unfold BufferMapper.mapAsyncView
    congr 2
    unfold BufferMapper.mapAsyncCorrection
    omega

/-- Witness for the amended C4 at `offset = 11`, `size = 3`. -/
theorem claim_C4_map_alignment_witness :
    BufferMapper.mapAsyncValidOffset 11 = 11 / 8 * 8 ∧
    (2 : Nat) < 3 ∧
    BufferMapper.mapAsyncView (fun i => i.toNat * 10) 11 3 2 =
      (((11 + 2 : Nat) : Int)).toNat * 10 :=
  ⟨rfl, by decide,
    (claim_C4_map_alignment 11 3 (fun i => i.toNat * 10)).2.2.2.2.2 2 (by decide)⟩

/-- C5: a device-to-device copy whose two 4-byte offset corrections differ
fails with the alignment-mismatch error and enqueues no hardware copy; when
the corrections agree it enqueues exactly one copy command at the aligned
offsets with size `upperMultipleOf(4, size + correction)`. -/
theorem claim_C5_copy_alignment (srcSize dstSize : Nat)
    (segmentSize : Option Nat) (srcOffset dstOffset : Nat)
    (srcBytes dstBytes : Int → Nat) :
    (srcOffset % 4 ≠ dstOffset % 4 →
      (copy srcSize dstSize segmentSize srcOffset dstOffset srcBytes
          dstBytes).error =
        some "Copying between unaligned buffers is not possible!" ∧
      (copy srcSize dstSize segmentSize srcOffset dstOffset srcBytes
          dstBytes).commands = []) ∧
    (srcOffset % 4 = dstOffset % 4 →
      (copy srcSize dstSize segmentSize srcOffset dstOffset srcBytes
          dstBytes).error = none ∧
      (copy srcSize dstSize segmentSize srcOffset dstOffset srcBytes
          dstBytes).commands =
        [(lowerMultipleOf 4 srcOffset, lowerMultipleOf 4 dstOffset,
          upperMultipleOf 4
            (segmentSize.getD
              (min (srcSize - srcOffset) (dstSize - dstOffset)) +
              srcOffset % 4))]) := by
  have hs := correction_eq_mod 4 srcOffset
  have hd := correction_eq_mod 4 dstOffset
  constructor
  · intro h
    unfold copy
    rw [if_pos (by omega)]
    exact ⟨rfl, rfl⟩
  · intro h
    unfold copy
    rw [if_neg (by omega)]
    refine ⟨rfl, ?_⟩
    rw [hs]

/-- Witness for C5: offsets 1 and 2 mismatch (corrections 1 vs 2) and fail;
offsets 5 and 1 agree (correction 1) and enqueue one aligned command. -/
theorem claim_C5_copy_alignment_witness :
    ((1 : Nat) % 4 ≠ 2 % 4) ∧
    (copy 16 16 (some 4) 1 2 (fun _ => 0) (fun _ => 0)).error =
      some "Copying between unaligned buffers is not possible!" ∧
    (copy 16 16 (some 4) 1 2 (fun _ => 0) (fun _ => 0)).commands = [] ∧
    ((5 : Nat) % 4 = 1 % 4) ∧
    (copy 16 16 (some 4) 5 1 (fun _ => 0) (fun _ => 0)).error = none ∧
    (copy 16 16 (some 4) 5 1 (fun _ => 0) (fun _ => 0)).commands =
      [(4, 0, 8)] := by
  have h1 := (claim_C5_copy_alignment 16 16 (some 4) 1 2 (fun _ => 0)
    (fun _ => 0)).1 (by decide)
  have h2 := (claim_C5_copy_alignment 16 16 (some 4) 5 1 (fun _ => 0)
    (fun _ => 0)).2 (by decide)
  refine ⟨by decide, h1.1, h1.2, by decide, h2.1, ?_⟩
  rw [h2.2]
  decide

/-!
## Claim C1: coalescing of concurrent mapAsync requests
-/

theorem BufferMapper.request_eq (s : MapperState) (offset size : Nat) :
    BufferMapper.request s offset size =
      { s with lo := min s.lo offset, hi := max s.hi (offset + size),
               scheduledCallbacks :=
                 s.scheduledCallbacks + (if s.hi > s.lo then 0 else 1) } := by
  rcases s with ⟨bs, lo, hi, k, pc⟩
  simp only [BufferMapper.request]
  split_ifs <;> (try simp_all [MapperState.mk.injEq]) <;> omega

/-- Requests arriving while the pending range is non-empty (a mapping is
already scheduled) never schedule a second mapping; they only fold the
corrected ranges into the pending range. -/
theorem BufferMapper.requestAll_collecting (reqs : List (Nat × Nat))
    (s : MapperState) (h : s.lo < s.hi) :
    (BufferMapper.requestAll s reqs).bufSize = s.bufSize ∧
    (BufferMapper.requestAll s reqs).scheduledCallbacks =
      s.scheduledCallbacks ∧
    (BufferMapper.requestAll s reqs).physicalCalls = s.physicalCalls ∧
    (BufferMapper.requestAll s reqs).lo =
      (reqs.map fun r => BufferMapper.mapAsyncValidOffset r.1).foldl min s.lo ∧
    (BufferMapper.requestAll s reqs).hi =
      (reqs.map fun r => BufferMapper.mapAsyncValidOffset r.1 +
        BufferMapper.mapAsyncValidSize r.1 r.2).foldl max s.hi ∧
    (BufferMapper.requestAll s reqs).lo < (BufferMapper.requestAll s reqs).hi := by
  induction reqs generalizing s with
  | nil => exact ⟨rfl, rfl, rfl, rfl, rfl, h⟩
  | cons r rs ih =>
    have hstep :
        BufferMapper.mapAsyncRequest s r =
          { s with lo := min s.lo (BufferMapper.mapAsyncValidOffset r.1),
                   hi := max s.hi (BufferMapper.mapAsyncValidOffset r.1 +
                     BufferMapper.mapAsyncValidSize r.1 r.2) } := by
      rw [BufferMapper.mapAsyncRequest, BufferMapper.request_eq]
      have : s.hi > s.lo := h
      simp [this]
    have h2 : (BufferMapper.mapAsyncRequest s r).lo <
        (BufferMapper.mapAsyncRequest s r).hi := by
      rw [hstep]
      simp only
      omega
    have hbs : (BufferMapper.mapAsyncRequest s r).bufSize = s.bufSize := by
      rw [hstep]
    have hsc : (BufferMapper.mapAsyncRequest s r).scheduledCallbacks =
        s.scheduledCallbacks := by
      rw [hstep]
    have hpc : (BufferMapper.mapAsyncRequest s r).physicalCalls =
        s.physicalCalls := by
      rw [hstep]
    have hlo : (BufferMapper.mapAsyncRequest s r).lo =
        min s.lo (BufferMapper.mapAsyncValidOffset r.1) := by
      rw [hstep]
    have hhi : (BufferMapper.mapAsyncRequest s r).hi =
        max s.hi (BufferMapper.mapAsyncValidOffset r.1 +
          BufferMapper.mapAsyncValidSize r.1 r.2) := by
      rw [hstep]
    have := ih (BufferMapper.mapAsyncRequest s r) h2
    simp only [BufferMapper.requestAll, List.foldl_cons, List.map_cons] at *
    rw [hbs, hsc, hpc, hlo, hhi] at this
    exact this

/-- C1: if N logical `mapAsync(offset_i, size_i)` calls (all with positive
size and in bounds) are issued before the first scheduled physical map
fires, then no physical call has been issued yet and exactly one callback
is scheduled; when it fires it issues exactly one physical
`mapAsync(range)` whose range is the covering interval of all N
alignment-corrected requested ranges, and the pending range is reset to the
empty encoding `[buffer.size, 0]` so later calls start a fresh batch. -/
theorem claim_C1_map_coalescing (cap : Nat) (reqs : List (Nat × Nat))
    (hne : reqs ≠ []) (hwf : ∀ r ∈ reqs, 0 < r.2 ∧ r.1 + r.2 ≤ cap) :
    (BufferMapper.requestAll (MapperState.init cap) reqs).physicalCalls = [] ∧
    (BufferMapper.requestAll (MapperState.init cap) reqs).scheduledCallbacks
      = 1 ∧
    (BufferMapper.fire
        (BufferMapper.requestAll (MapperState.init cap) reqs)).physicalCalls =
      [((BufferMapper.requestAll (MapperState.init cap) reqs).lo,
        (BufferMapper.requestAll (MapperState.init cap) reqs).hi -
          (BufferMapper.requestAll (MapperState.init cap) reqs).lo)] ∧
    (∀ r ∈ reqs,
      (BufferMapper.requestAll (MapperState.init cap) reqs).lo ≤
        BufferMapper.mapAsyncValidOffset r.1 ∧
      BufferMapper.mapAsyncValidOffset r.1 +
          BufferMapper.mapAsyncValidSize r.1 r.2 ≤
        (BufferMapper.requestAll (MapperState.init cap) reqs).hi) ∧
    (∃ r ∈ reqs, BufferMapper.mapAsyncValidOffset r.1 =
      (BufferMapper.requestAll (MapperState.init cap) reqs).lo) ∧
    (∃ r ∈ reqs, BufferMapper.mapAsyncValidOffset r.1 +
        BufferMapper.mapAsyncValidSize r.1 r.2 =
      (BufferMapper.requestAll (MapperState.init cap) reqs).hi) ∧
    (BufferMapper.fire
      (BufferMapper.requestAll (MapperState.init cap) reqs)).lo = cap ∧
    (BufferMapper.fire
      (BufferMapper.requestAll (MapperState.init cap) reqs)).hi = 0 ∧
    (BufferMapper.fire
        (BufferMapper.requestAll (MapperState.init cap) reqs)).hi <
      (BufferMapper.fire
        (BufferMapper.requestAll (MapperState.init cap) reqs)).lo ∧
    (BufferMapper.fire
      (BufferMapper.requestAll
        (MapperState.init cap) reqs)).scheduledCallbacks = 0 := by
  rcases reqs with _ | ⟨r0, rs⟩
  · exact absurd rfl hne
  obtain ⟨hr0size, hr0bound⟩ := hwf r0 (List.mem_cons_self r0 rs)
  -- the first request schedules the one callback and leaves a non-empty range
  have hvo0 : BufferMapper.mapAsyncValidOffset r0.1 ≤ r0.1 :=
    lowerMultipleOf_le 8 r0.1
  have hvs0 : 0 < BufferMapper.mapAsyncValidSize r0.1 r0.2 := by
    have := upperMultipleOf_ge 4 (r0.2 + BufferMapper.mapAsyncCorrection r0.1)
      (by norm_num)
    unfold BufferMapper.mapAsyncValidSize
    omega
  have hcappos : 0 < cap := by omega
  have hfirst :
      BufferMapper.mapAsyncRequest (MapperState.init cap) r0 =
        { bufSize := cap,
          lo := min cap (BufferMapper.mapAsyncValidOffset r0.1),
          hi := max 0 (BufferMapper.mapAsyncValidOffset r0.1 +
            BufferMapper.mapAsyncValidSize r0.1 r0.2),
          scheduledCallbacks := 1,
          physicalCalls := [] } := by
    rw [BufferMapper.mapAsyncRequest, BufferMapper.request_eq]
    simp [MapperState.init]
  have hb0 : (BufferMapper.mapAsyncRequest (MapperState.init cap) r0).bufSize
      = cap := by
    rw [hfirst]
  have hs0 : (BufferMapper.mapAsyncRequest
      (MapperState.init cap) r0).scheduledCallbacks = 1 := by
    rw [hfirst]
  have hp0 : (BufferMapper.mapAsyncRequest
      (MapperState.init cap) r0).physicalCalls = [] := by
    rw [hfirst]
  have hl0 : (BufferMapper.mapAsyncRequest (MapperState.init cap) r0).lo =
      BufferMapper.mapAsyncValidOffset r0.1 := by
    rw [hfirst]
    exact Nat.min_eq_right (hvo0.trans (by omega))
  have hh0 : (BufferMapper.mapAsyncRequest (MapperState.init cap) r0).hi =
      BufferMapper.mapAsyncValidOffset r0.1 +
        BufferMapper.mapAsyncValidSize r0.1 r0.2 := by
    rw [hfirst]
    exact Nat.max_eq_right (Nat.zero_le _)
  have hne1 : (BufferMapper.mapAsyncRequest (MapperState.init cap) r0).lo <
      (BufferMapper.mapAsyncRequest (MapperState.init cap) r0).hi := by
    rw [hl0, hh0]
    omega
  obtain ⟨hbs, hsched, hpc, hlo, hhi, hlt⟩ :=
    BufferMapper.requestAll_collecting rs
      (BufferMapper.mapAsyncRequest (MapperState.init cap) r0) hne1
  have hall : BufferMapper.requestAll (MapperState.init cap) (r0 :: rs) =
      BufferMapper.requestAll
        (BufferMapper.mapAsyncRequest (MapperState.init cap) r0) rs := rfl
  rw [hall]
  rw [hl0] at hlo
  rw [hh0] at hhi
  have hbs' := hbs.trans hb0
  have hsched' := hsched.trans hs0
  have hpc' := hpc.trans hp0
  obtain ⟨hminmem, hminle, hminall⟩ := foldl_min_spec
    (BufferMapper.mapAsyncValidOffset r0.1)
    (rs.map fun r => BufferMapper.mapAsyncValidOffset r.1)
  obtain ⟨hmaxmem, hmaxle, hmaxall⟩ := foldl_max_spec
    (BufferMapper.mapAsyncValidOffset r0.1 +
      BufferMapper.mapAsyncValidSize r0.1 r0.2)
    (rs.map fun r => BufferMapper.mapAsyncValidOffset r.1 +
      BufferMapper.mapAsyncValidSize r.1 r.2)
  refine ⟨hpc', hsched', ?_, ?_, ?_, ?_, ?_, ?_, ?_, ?_⟩
  · show (BufferMapper.requestAll
        (BufferMapper.mapAsyncRequest (MapperState.init cap) r0)
        rs).physicalCalls ++ _ = _
    rw [hpc']
    rfl
  · intro r hr0
    rcases List.mem_cons.mp hr0 with rfl | hr
    · refine ⟨?_, ?_⟩
      · rw [hlo]
        exact hminle
      · rw [hhi]
        exact hmaxle
    · constructor
      · rw [hlo]
        exact hminall _ (List.mem_map_of_mem _ hr)
      · rw [hhi]
        exact hmaxall _ (List.mem_map_of_mem _ hr)
  · rw [hlo]
    rcases hminmem with hm | ⟨x, hx, hm⟩
    · exact ⟨r0, List.mem_cons_self r0 rs, hm.symm⟩
    · obtain ⟨r, hr, rfl⟩ := List.mem_map.mp hx
      exact ⟨r, List.mem_cons_of_mem r0 hr, hm.symm⟩
  · rw [hhi]
    rcases hmaxmem with hm | ⟨x, hx, hm⟩
    · exact ⟨r0, List.mem_cons_self r0 rs, hm.symm⟩
    · obtain ⟨r, hr, rfl⟩ := List.mem_map.mp hx
      exact ⟨r, List.mem_cons_of_mem r0 hr, hm.symm⟩
  · show (BufferMapper.requestAll
        (BufferMapper.mapAsyncRequest (MapperState.init cap) r0)
        rs).bufSize = cap
    exact hbs'
  · rfl
  · show (0 : Nat) < (BufferMapper.requestAll
        (BufferMapper.mapAsyncRequest (MapperState.init cap) r0) rs).bufSize
    rw [hbs']
    exact hcappos
  · show (BufferMapper.requestAll
        (BufferMapper.mapAsyncRequest (MapperState.init cap) r0)
        rs).scheduledCallbacks - 1 = 0
    rw [hsched']

/-- Witness for C1: two requests `(0, 4)` and `(8, 4)` on a 16-byte buffer
coalesce into the one physical call `(0, 12)`. -/
theorem claim_C1_map_coalescing_witness :
    ([((0 : Nat), (4 : Nat)), (8, 4)] ≠ ([] : List (Nat × Nat))) ∧
    (∀ r ∈ [((0 : Nat), (4 : Nat)), (8, 4)], 0 < r.2 ∧ r.1 + r.2 ≤ 16) ∧
    (BufferMapper.fire
        (BufferMapper.requestAll (MapperState.init 16)
          [(0, 4), (8, 4)])).physicalCalls =
      [((BufferMapper.requestAll (MapperState.init 16) [(0, 4), (8, 4)]).lo,
        (BufferMapper.requestAll (MapperState.init 16) [(0, 4), (8, 4)]).hi -
          (BufferMapper.requestAll (MapperState.init 16) [(0, 4), (8, 4)]).lo)] ∧
    (BufferMapper.requestAll (MapperState.init 16) [(0, 4), (8, 4)]).lo = 0 ∧
    (BufferMapper.requestAll (MapperState.init 16) [(0, 4), (8, 4)]).hi = 12 :=
  ⟨by decide, by decide,
    (claim_C1_map_coalescing 16 [(0, 4), (8, 4)] (by decide) (by decide)).2.2.1,
    by decide, by decide⟩

/-!
## Claim C2: coalescing of set calls into one flush
-/

/-- C2: a sequence of `set` calls before the scheduled flush fires makes the
dirty range the smallest half-open interval containing all written element
ranges, and the flush issues exactly one `writeFromHost` with
`offset = lo` and `size = hi - lo`; in particular, with capacity 10
(rounded up to 12), `set` at `[3, 5)` then `[7, 9)` widens the dirty range
from `[3, 5)` to `[3, 9)` and the flush issues one `writeFromHost(3, 6)`. -/
theorem claim_C2_set_coalescing (cap : Nat) (rs : List (Nat × Nat))
    (hne : rs ≠ [])
    (hwf : ∀ r ∈ rs, r.1 < r.2 ∧ r.2 ≤ newBlankBufferSize cap) :
    (∀ r ∈ rs,
      (SyncBuffer.dirtyAll (SyncState.init (newBlankBufferSize cap)) rs).lo ≤
          r.1 ∧
        r.2 ≤
          (SyncBuffer.dirtyAll (SyncState.init (newBlankBufferSize cap)) rs).hi) ∧
    (∃ r ∈ rs, r.1 =
      (SyncBuffer.dirtyAll (SyncState.init (newBlankBufferSize cap)) rs).lo) ∧
    (∃ r ∈ rs, r.2 =
      (SyncBuffer.dirtyAll (SyncState.init (newBlankBufferSize cap)) rs).hi) ∧
    (SyncBuffer.clean
        (SyncBuffer.dirtyAll (SyncState.init (newBlankBufferSize cap)) rs)).writes =
      [((SyncBuffer.dirtyAll (SyncState.init (newBlankBufferSize cap)) rs).lo,
        (SyncBuffer.dirtyAll (SyncState.init (newBlankBufferSize cap)) rs).hi -
          (SyncBuffer.dirtyAll (SyncState.init (newBlankBufferSize cap)) rs).lo)] ∧
    (SyncBuffer.dirtyAll (SyncState.init (newBlankBufferSize 10)) [(3, 5)]).lo
      = 3 ∧
    (SyncBuffer.dirtyAll (SyncState.init (newBlankBufferSize 10)) [(3, 5)]).hi
      = 5 ∧
    (SyncBuffer.dirtyAll (SyncState.init (newBlankBufferSize 10))
      [(3, 5), (7, 9)]).lo = 3 ∧
    (SyncBuffer.dirtyAll (SyncState.init (newBlankBufferSize 10))
      [(3, 5), (7, 9)]).hi = 9 ∧
    (SyncBuffer.clean
        (SyncBuffer.dirtyAll (SyncState.init (newBlankBufferSize 10))
          [(3, 5), (7, 9)])).writes = [(3, 6)] := by
  rcases rs with _ | ⟨r0, rs'⟩
  · exact absurd rfl hne
  obtain ⟨hr0lt, hr0le⟩ := hwf r0 (List.mem_cons_self r0 rs')
  have hlo := SyncBuffer.dirtyAll_lo
    (SyncState.init (newBlankBufferSize cap)) (r0 :: rs')
  have hhi := SyncBuffer.dirtyAll_hi
    (SyncState.init (newBlankBufferSize cap)) (r0 :: rs')
  have hwrites := SyncBuffer.dirtyAll_writes
    (SyncState.init (newBlankBufferSize cap)) (r0 :: rs')
  obtain ⟨hminmem, hminle, hminall⟩ := foldl_min_spec
    (SyncState.init (newBlankBufferSize cap)).lo
    ((r0 :: rs').map Prod.fst)
  obtain ⟨hmaxmem, hmaxle, hmaxall⟩ := foldl_max_spec
    (SyncState.init (newBlankBufferSize cap)).hi
    ((r0 :: rs').map Prod.snd)
  refine ⟨?_, ?_, ?_, ?_, by decide, by decide, by decide, by decide, by decide⟩
  · intro r hr
    constructor
    · rw [hlo]
      exact hminall _ (List.mem_map_of_mem _ hr)
    · rw [hhi]
      exact hmaxall _ (List.mem_map_of_mem _ hr)
  · rw [hlo]
    rcases hminmem with hm | ⟨x, hx, hm⟩
    · exfalso
      have h1 := hminall r0.1
        (List.mem_map_of_mem Prod.fst (List.mem_cons_self r0 rs'))
      have h2 : (SyncState.init (newBlankBufferSize cap)).lo =
          newBlankBufferSize cap := rfl
      omega
    · obtain ⟨r, hr, rfl⟩ := List.mem_map.mp hx
      exact ⟨r, hr, hm.symm⟩
  · rw [hhi]
    rcases hmaxmem with hm | ⟨x, hx, hm⟩
    · exfalso
      have h1 := hmaxall r0.2
        (List.mem_map_of_mem Prod.snd (List.mem_cons_self r0 rs'))
      have h2 : (SyncState.init (newBlankBufferSize cap)).hi = 0 := rfl
      omega
    · obtain ⟨r, hr, rfl⟩ := List.mem_map.mp hx
      exact ⟨r, hr, hm.symm⟩
  · rw [SyncBuffer.clean, hwrites]
    rfl

/-- Witness for C2 at capacity 10 with the two scenario writes. -/
theorem claim_C2_set_coalescing_witness :
    ([((3 : Nat), (5 : Nat)), (7, 9)] ≠ ([] : List (Nat × Nat))) ∧
    (∀ r ∈ [((3 : Nat), (5 : Nat)), (7, 9)],
      r.1 < r.2 ∧ r.2 ≤ newBlankBufferSize 10) ∧
    (SyncBuffer.clean
        (SyncBuffer.dirtyAll (SyncState.init (newBlankBufferSize 10))
          [(3, 5), (7, 9)])).writes =
      [((SyncBuffer.dirtyAll (SyncState.init (newBlankBufferSize 10))
          [(3, 5), (7, 9)]).lo,
        (SyncBuffer.dirtyAll (SyncState.init (newBlankBufferSize 10))
            [(3, 5), (7, 9)]).hi -
          (SyncBuffer.dirtyAll (SyncState.init (newBlankBufferSize 10))
            [(3, 5), (7, 9)]).lo)] :=
  ⟨by decide, by decide,
    (claim_C2_set_coalescing 10 [(3, 5), (7, 9)] (by decide)
      (by decide)).2.2.2.1⟩

/-!
## Claim C6: at most one flush scheduled at a time
-/

/-- Inductive invariant of the dirty-range state machine: the mirror length
is fixed, at most one flush callback is pending, and one is pending exactly
when the dirty range is non-empty (`lo ≤ hi`). -/
theorem syncReachable_invariant {len : Nat} (hlen : 0 < len) {s : SyncState}
    (h : SyncReachable len s) :
    s.len = len ∧ s.pendingFlushes ≤ 1 ∧
      (s.pendingFlushes = 1 ↔ s.lo ≤ s.hi) := by
  induction h with
  | init =>
    refine ⟨rfl, Nat.zero_le 1, ?_, ?_⟩
    · intro h01
      exact absurd h01 (by simp [SyncState.init])
    · intro hle
      have : len ≤ 0 := hle
      omega
  | step hr hwfe ih =>
    rename_i s e
    obtain ⟨h0, h1, h2⟩ := ih
    cases e with
    | set a b =>
      have hab : a ≤ b := hwfe
      have heq := SyncBuffer.dirty_eq s (a, b)
      have hpf : (SyncBuffer.dirty s (a, b)).pendingFlushes =
          s.pendingFlushes + (if s.lo > s.hi then 1 else 0) := by rw [heq]
      have hlo : (SyncBuffer.dirty s (a, b)).lo = min s.lo a := by rw [heq]
      have hhi : (SyncBuffer.dirty s (a, b)).hi = max s.hi b := by rw [heq]
      have hln : (SyncBuffer.dirty s (a, b)).len = s.len := by rw [heq]
      show (SyncBuffer.dirty s (a, b)).len = len ∧
        (SyncBuffer.dirty s (a, b)).pendingFlushes ≤ 1 ∧
        ((SyncBuffer.dirty s (a, b)).pendingFlushes = 1 ↔
          (SyncBuffer.dirty s (a, b)).lo ≤ (SyncBuffer.dirty s (a, b)).hi)
      rw [hpf, hlo, hhi, hln]
      have hm1 := Nat.min_le_right s.lo a
      have hm2 := Nat.min_le_left s.lo a
      have hm3 := Nat.le_max_right s.hi b
      have hm4 := Nat.le_max_left s.hi b
      refine ⟨h0, ?_, ?_, ?_⟩
      · by_cases hempty : s.lo > s.hi
        · rw [if_pos hempty]
          have hne1 : s.pendingFlushes ≠ 1 := fun hh =>
            absurd (h2.mp hh) (by omega)
          omega
        · rw [if_neg hempty]
          omega
      · intro
        omega
      · intro
        by_cases hempty : s.lo > s.hi
        · rw [if_pos hempty]
          have hne1 : s.pendingFlushes ≠ 1 := fun hh =>
            absurd (h2.mp hh) (by omega)
          omega
        · rw [if_neg hempty]
          have hp1 : s.pendingFlushes = 1 := h2.mpr (by omega)
          omega
    | flushTick =>
      have hp : 0 < s.pendingFlushes := hwfe
      show (SyncBuffer.clean s).len = len ∧
        (SyncBuffer.clean s).pendingFlushes ≤ 1 ∧
        ((SyncBuffer.clean s).pendingFlushes = 1 ↔
          (SyncBuffer.clean s).lo ≤ (SyncBuffer.clean s).hi)
      have hpf : (SyncBuffer.clean s).pendingFlushes =
          s.pendingFlushes - 1 := rfl
      have hlo : (SyncBuffer.clean s).lo = s.len := rfl
      have hhi : (SyncBuffer.clean s).hi = 0 := rfl
      have hln : (SyncBuffer.clean s).len = s.len := rfl
      rw [hpf, hlo, hhi, hln]
      refine ⟨h0, by omega, ?_, ?_⟩
      · intro h01
        omega
      · intro hle
        have : s.len ≤ 0 := hle
        omega

/-- C6: for every reachable `SyncBuffer` state, at most one flush is
scheduled; a `set` schedules a flush exactly when the dirty range was empty
(`lo > hi`) before the call, schedules nothing while a flush is pending,
and the flush resets the dirty range to the empty encoding. -/
theorem claim_C6_single_flush (len : Nat) (hlen : 0 < len) (s : SyncState)
    (hreach : SyncReachable len s) :
    s.pendingFlushes ≤ 1 ∧
    (s.pendingFlushes = 1 ↔ s.lo ≤ s.hi) ∧
    (∀ a b : Nat, (SyncBuffer.dirty s (a, b)).pendingFlushes =
      s.pendingFlushes + (if s.lo > s.hi then 1 else 0)) ∧
    (s.pendingFlushes = 1 →
      ∀ a b : Nat, (SyncBuffer.dirty s (a, b)).pendingFlushes =
        s.pendingFlushes) ∧
    (SyncBuffer.clean s).lo = len ∧
    (SyncBuffer.clean s).hi = 0 ∧
    (SyncBuffer.clean s).hi < (SyncBuffer.clean s).lo := by
  obtain ⟨hlen2, h1, h2⟩ := syncReachable_invariant hlen hreach
  refine ⟨h1, h2, ?_, ?_, ?_, rfl, ?_⟩
  · intro a b
    rw [SyncBuffer.dirty_eq]
  · intro hp1 a b
    rw [SyncBuffer.dirty_eq]
    have hle : s.lo ≤ s.hi := h2.mp hp1
    simp only [if_neg (by omega : ¬ s.lo > s.hi)]
    omega
  · show s.len = len
    exact hlen2
  · show (0 : Nat) < s.len
    omega

/-- Witness for C6 at the reachable state after one `set` of range
`[3, 5]` on a 12-byte mirror. -/
theorem claim_C6_single_flush_witness :
    (0 : Nat) < 12 ∧
    (SyncBuffer.step (SyncState.init 12) (SyncEvent.set 3 5)).pendingFlushes
      ≤ 1 ∧
    ((SyncBuffer.step (SyncState.init 12)
        (SyncEvent.set 3 5)).pendingFlushes = 1 ↔
      (SyncBuffer.step (SyncState.init 12) (SyncEvent.set 3 5)).lo ≤
        (SyncBuffer.step (SyncState.init 12) (SyncEvent.set 3 5)).hi) :=
  ⟨by decide,
    (claim_C6_single_flush 12 (by decide) _
      (SyncReachable.step SyncReachable.init (by show 3 ≤ 5; decide))).1,
    (claim_C6_single_flush 12 (by decide) _
      (SyncReachable.step SyncReachable.init (by show 3 ≤ 5; decide))).2.1⟩

/-!
## Claim C7: round trip across a flush
-/

/-- The staging buffer of `DataBuffer.getAsData` is destroyed on both the
normal and the exceptional exit path. -/
theorem DataBuffer.getAsData_destroys (b : BufferState) :
    (DataBuffer.getAsData b).2 = true := rfl

end Lumen
